import Mathlib

/-!
Verification of the bentos sync-connector scripts
(`internal/assets/pos/skills/*/scripts/sync.py`).

The Python scripts are shallowly embedded: Python/JSON values become the
inductive `Json`, strings are Lean `String`s manipulated through their
character lists (so that everything reduces in the kernel), the process
environment of a run (POS_DIR, SKILL.md contents, per-invocation outcomes
of the external CLI) is an explicit record, and `main` becomes a pure
function from that record to the emitted event list, exit code and the
snapshot document that would be written.
-/

namespace Bentos

/-- A Python/JSON value as produced by `json.loads` and manipulated by the
sync scripts.  Numbers are modelled as exact rationals (Python distinguishes
int and float; no claim exercises float formatting, and integral values
round-trip exactly). -/
inductive Json where
  | null
  | bool (b : Bool)
  | num (q : Rat)
  | str (s : String)
  | arr (xs : List Json)
  | obj (kvs : List (String × Json))

/-- The character `{`. -/
def lbrace : Char := Char.ofNat 123

/-- The character `}`. -/
def rbrace : Char := Char.ofNat 125

/-! ## Python string helpers (over character lists, so they compute) -/

/-- Whitespace stripped by Python `str.strip()` (ASCII subset; the scripts
never feed exotic Unicode spaces into `strip`). -/
def isPySpace (c : Char) : Bool :=
  c = ' ' || c = '\t' || c = '\n' || c = '\r' || c = '\x0b' || c = '\x0c'

/-- `str.strip()` on a character list. -/
def stripChars (l : List Char) : List Char :=
  ((l.dropWhile isPySpace).reverse.dropWhile isPySpace).reverse

/-- Python `str.strip()`. -/
def pyStrip (s : String) : String := String.mk (stripChars s.data)

/-- `str.lstrip()`. -/
def pyLstrip (s : String) : String := String.mk (s.data.dropWhile isPySpace)

/-- `str.lower()` (ASCII; the sentinel comparisons in the scripts are ASCII). -/
def pyLower (s : String) : String := String.mk (s.data.map Char.toLower)

/-- `str.upper()` (ASCII). -/
def pyUpper (s : String) : String := String.mk (s.data.map Char.toUpper)

/-- `s.startswith(pre)`. -/
def strStartsWith (s pre : String) : Bool := pre.data.isPrefixOf s.data

/-- Python slicing `s[:n]`. -/
def pyTake (n : Nat) (s : String) : String := String.mk (s.data.take n)

/-- Line-break characters recognised by Python `str.splitlines()`. -/
def isLineBreak (c : Char) : Bool :=
  c = '\n' || c = '\r' || c = '\x0b' || c = '\x0c' || c = '\x1c' ||
  c = '\x1d' || c = '\x1e' || c = '\x85' || c = ' ' || c = ' '

/-- Worker for `splitlines`: `acc` is the current line, reversed. -/
def splitlinesGo : List Char → List Char → List String
  | [], acc => if acc.isEmpty then [] else [String.mk acc.reverse]
  | '\r' :: '\n' :: rest, acc => String.mk acc.reverse :: splitlinesGo rest []
  | c :: rest, acc =>
    if isLineBreak c then String.mk acc.reverse :: splitlinesGo rest []
    else splitlinesGo rest (c :: acc)

/-- Python `str.splitlines()`. -/
def pySplitlines (s : String) : List String := splitlinesGo s.data []

/-- Worker for `split(sep)` with a one-character separator. -/
def splitCharGo (sep : Char) : List Char → List Char → List String
  | [], acc => [String.mk acc.reverse]
  | c :: rest, acc =>
    if c = sep then String.mk acc.reverse :: splitCharGo sep rest []
    else splitCharGo sep rest (c :: acc)

/-- Python `str.split(sep)` for a one-character separator. -/
def pySplitChar (sep : Char) (s : String) : List String := splitCharGo sep s.data []

/-- `sep.join(xs)`. -/
def joinWith (sep : String) : List String → String
  | [] => ""
  | [x] => x
  | x :: y :: xs => x ++ sep ++ joinWith sep (y :: xs)

/-- Python `str.isdigit()` (ASCII digits). -/
def pyIsDigit (s : String) : Bool := s.data ≠ [] && s.data.all Char.isDigit

/-- Lexicographic code-point comparison of character lists: Python `<=` on
strings (a computable replacement for the library's iterator-based order,
so that sorts evaluate in the kernel). -/
def charsLe : List Char → List Char → Bool
  | [], _ => true
  | _ :: _, [] => false
  | a :: as, b :: bs => if a < b then true else if b < a then false else charsLe as bs

/-- Python `a <= b` on strings (code-point lexicographic). -/
def pyStrLe (a b : String) : Bool := charsLe a.data b.data

/-- Digits to a natural number. -/
def digitsToNat (l : List Char) : Nat :=
  l.foldl (fun a c => a * 10 + (c.toNat - 48)) 0

/-- Python `int(s)` on a string: optional surrounding whitespace, optional
sign, then digits; `none` models the `ValueError`. -/
def pyIntOfString (s : String) : Option Int :=
  let t := stripChars s.data
  match t with
  | '-' :: ds => if ds ≠ [] && ds.all Char.isDigit then some (-(digitsToNat ds : Int)) else none
  | '+' :: ds => if ds ≠ [] && ds.all Char.isDigit then some (digitsToNat ds : Int) else none
  | ds => if ds ≠ [] && ds.all Char.isDigit then some (digitsToNat ds : Int) else none

/-! ## Python truthiness, `or`, `str()` over `Json` -/

/-- Python truthiness of a value. -/
def Json.truthy : Json → Bool
  | .null => false
  | .bool b => b
  | .num q => q ≠ 0
  | .str s => s ≠ ""
  | .arr xs => !xs.isEmpty
  | .obj kvs => !kvs.isEmpty

/-- Python `a or b` on values. -/
def pyOr (a b : Json) : Json := if a.truthy then a else b

/-- Python `a or b` where both operands are value-or-None
(`None` is `Option.none`). -/
def pyOrOpt (a b : Option Json) : Option Json :=
  match a with
  | some v => if v.truthy then some v else b
  | none => b

/-- `dict.get(k)` (defaulting to `None`, i.e. `Json.null`); the scripts only
call `.get` on values they have `isinstance`-checked to be dicts. -/
def jget (j : Json) (k : String) : Json :=
  match j with
  | .obj kvs => (kvs.find? (fun kv => kv.1 = k)).elim Json.null (·.2)
  | _ => .null

/-- Python `k in d` for a dict. -/
def jhas (j : Json) (k : String) : Bool :=
  match j with
  | .obj kvs => kvs.any (fun kv => kv.1 = k)
  | _ => false

/-- Integer rendering (Python `str(int)`). -/
def intRepr (n : Int) : String := toString n

/-- Fuel-driven Python `repr` of a value; the fuel is instantiated with
`sizeOf`, which bounds the nesting depth, so the 0-fuel branch is
unreachable.  Container/float rendering is best effort (CPython quote
selection and float shortest-round-trip formatting are not modelled); no
claim evaluates `str()` on a container or float. -/
def pyReprF : Nat → Json → String
  | 0, _ => ""
  | _ + 1, .null => "None"
  | _ + 1, .bool true => "True"
  | _ + 1, .bool false => "False"
  | _ + 1, .num q => if q.den = 1 then intRepr q.num else toString q.num ++ "/" ++ toString q.den
  | _ + 1, .str s => "'" ++ s ++ "'"
  | f + 1, .arr xs => "[" ++ joinWith ", " (xs.map (pyReprF f)) ++ "]"
  | f + 1, .obj kvs =>
    String.mk [lbrace] ++
      joinWith ", " (kvs.map (fun kv => "'" ++ kv.1 ++ "': " ++ pyReprF f kv.2)) ++
      String.mk [rbrace]

mutual

/-- Nesting depth of a value; instantiates the `repr` fuel. -/
def Json.depth : Json → Nat
  | .null => 1
  | .bool _ => 1
  | .num _ => 1
  | .str _ => 1
  | .arr xs => 1 + Json.depthList xs
  | .obj kvs => 1 + Json.depthKvs kvs

/-- Maximum depth of a list of values. -/
def Json.depthList : List Json → Nat
  | [] => 0
  | j :: js => max (Json.depth j) (Json.depthList js)

/-- Maximum depth of the values of an association list. -/
def Json.depthKvs : List (String × Json) → Nat
  | [] => 0
  | kv :: kvs => max (Json.depth kv.2) (Json.depthKvs kvs)

end

/-- Python `str()` of a value (`str` on a string is the identity; containers
fall back to `repr`). -/
def pyStr : Json → String
  | .null => "None"
  | .bool true => "True"
  | .bool false => "False"
  | .num q => pyReprF 1 (.num q)
  | .str s => s
  | .arr xs => pyReprF (Json.depth (.arr xs)) (.arr xs)
  | .obj kvs => pyReprF (Json.depth (.obj kvs)) (.obj kvs)

/-! ## `json` module: `raw_decode` / `loads`

A fuel-driven recursive-descent decoder for the JSON accepted by Python's
`json.scanner` (strict mode): `null/true/false`, strings with the standard
escapes (`\uXXXX` incl. surrogate pairs; lone surrogates, which Lean `Char`
cannot represent, are rejected), numbers per the JSON grammar, arrays and
objects (later duplicate keys overwrite, dict-style).  The non-finite
constants `NaN/Infinity` are not modelled (no claim exercises them). -/

/-- JSON inter-token whitespace. -/
def isJsonWs (c : Char) : Bool := c = ' ' || c = '\t' || c = '\n' || c = '\r'

/-- Skip JSON whitespace. -/
def skipWs (cs : List Char) : List Char := cs.dropWhile isJsonWs

/-- Hex digit value. -/
def hexVal (c : Char) : Option Nat :=
  if c.isDigit then some (c.toNat - 48)
  else if 'a' ≤ c && c ≤ 'f' then some (c.toNat - 87)
  else if 'A' ≤ c && c ≤ 'F' then some (c.toNat - 55)
  else none

/-- Four hex digits. -/
def parseHex4 : List Char → Option (Nat × List Char)
  | a :: b :: c :: d :: rest =>
    match hexVal a, hexVal b, hexVal c, hexVal d with
    | some x, some y, some z, some w => some (((x * 16 + y) * 16 + z) * 16 + w, rest)
    | _, _, _, _ => none
  | _ => none

/-- JSON string body after the opening quote; `acc` is reversed. -/
def parseJStringGo : Nat → List Char → List Char → Option (String × List Char)
  | 0, _, _ => none
  | _ + 1, [], _ => none
  | f + 1, c :: rest, acc =>
    if c = '"' then some (String.mk acc.reverse, rest)
    else if c = '\\' then
      match rest with
      | [] => none
      | e :: rest2 =>
        if e = '"' then parseJStringGo f rest2 ('"' :: acc)
        else if e = '\\' then parseJStringGo f rest2 ('\\' :: acc)
        else if e = '/' then parseJStringGo f rest2 ('/' :: acc)
        else if e = 'b' then parseJStringGo f rest2 ('\x08' :: acc)
        else if e = 'f' then parseJStringGo f rest2 ('\x0c' :: acc)
        else if e = 'n' then parseJStringGo f rest2 ('\n' :: acc)
        else if e = 'r' then parseJStringGo f rest2 ('\r' :: acc)
        else if e = 't' then parseJStringGo f rest2 ('\t' :: acc)
        else if e = 'u' then
          match parseHex4 rest2 with
          | none => none
          | some (n, rest3) =>
            if 0xD800 ≤ n && n < 0xDC00 then
              match rest3 with
              | '\\' :: 'u' :: rest4 =>
                match parseHex4 rest4 with
                | some (m, rest5) =>
                  if 0xDC00 ≤ m && m < 0xE000 then
                    parseJStringGo f rest5
                      (Char.ofNat (0x10000 + (n - 0xD800) * 0x400 + (m - 0xDC00)) :: acc)
                  else none
                | none => none
              | _ => none
            else if 0xDC00 ≤ n && n < 0xE000 then none
            else parseJStringGo f rest3 (Char.ofNat n :: acc)
        else none
    else if c.toNat < 0x20 then none
    else parseJStringGo f rest (c :: acc)

/-- A JSON number per the grammar `-?(0|[1-9][0-9]*)(\.[0-9]+)?([eE][+-]?[0-9]+)?`,
evaluated exactly as a rational. -/
def parseJNumber (cs : List Char) : Option (Json × List Char) :=
  let signed : Bool × List Char := match cs with
    | '-' :: r => (true, r)
    | _ => (false, cs)
  let neg := signed.1
  let cs1 := signed.2
  match cs1 with
  | [] => none
  | c :: _ =>
    if ¬ c.isDigit then none
    else
      let ip : List Char × List Char :=
        match cs1 with
        | '0' :: r => (['0'], r)
        | _ => (cs1.takeWhile Char.isDigit, cs1.dropWhile Char.isDigit)
      let ipart := ip.1
      let cs2 := ip.2
      let fp : List Char × List Char :=
        match cs2 with
        | '.' :: r =>
          if (r.takeWhile Char.isDigit) ≠ [] then
            (r.takeWhile Char.isDigit, r.dropWhile Char.isDigit)
          else ([], cs2)
        | _ => ([], cs2)
      let fpart := fp.1
      let cs3 := fp.2
      let ex : Option (Bool × List Char) × List Char :=
        match cs3 with
        | 'e' :: '+' :: r => if (r.takeWhile Char.isDigit) ≠ [] then (some (false, r.takeWhile Char.isDigit), r.dropWhile Char.isDigit) else (none, cs3)
        | 'e' :: '-' :: r => if (r.takeWhile Char.isDigit) ≠ [] then (some (true, r.takeWhile Char.isDigit), r.dropWhile Char.isDigit) else (none, cs3)
        | 'e' :: r => if (r.takeWhile Char.isDigit) ≠ [] then (some (false, r.takeWhile Char.isDigit), r.dropWhile Char.isDigit) else (none, cs3)
        | 'E' :: '+' :: r => if (r.takeWhile Char.isDigit) ≠ [] then (some (false, r.takeWhile Char.isDigit), r.dropWhile Char.isDigit) else (none, cs3)
        | 'E' :: '-' :: r => if (r.takeWhile Char.isDigit) ≠ [] then (some (true, r.takeWhile Char.isDigit), r.dropWhile Char.isDigit) else (none, cs3)
        | 'E' :: r => if (r.takeWhile Char.isDigit) ≠ [] then (some (false, r.takeWhile Char.isDigit), r.dropWhile Char.isDigit) else (none, cs3)
        | _ => (none, cs3)
      let base : Rat :=
        (digitsToNat ipart : Rat) +
          (if fpart = [] then 0 else (digitsToNat fpart : Rat) / ((10 : Rat) ^ fpart.length))
      let scaled : Rat :=
        match ex.1 with
        | none => base
        | some (eneg, eds) =>
          if eneg then base / ((10 : Rat) ^ digitsToNat eds)
          else base * ((10 : Rat) ^ digitsToNat eds)
      some (.num (if neg then -scaled else scaled), ex.2)

/-- Dict-semantics insertion: an existing key keeps its position and gets the
new value; a new key is appended. -/
def objInsert : List (String × Json) → String → Json → List (String × Json)
  | [], k, v => [(k, v)]
  | (k', v') :: rest, k, v =>
    if k' = k then (k, v) :: rest else (k', v') :: objInsert rest k v

/-- Parser mode: a whole value, the items of an array after the first
position, or the members of an object. -/
inductive PMode where
  | val
  | arrItems (acc : List Json)
  | objItems (acc : List (String × Json))

/-- The JSON decoder, structurally recursive on fuel so that it reduces in
the kernel.  `2 * length + 8` fuel always suffices (each step consumes
input or immediately recurses once). -/
def parseJ : Nat → PMode → List Char → Option (Json × List Char)
  | 0, _, _ => none
  | f + 1, .val, cs =>
    match cs with
    | [] => none
    | 'n' :: 'u' :: 'l' :: 'l' :: r => some (.null, r)
    | 't' :: 'r' :: 'u' :: 'e' :: r => some (.bool true, r)
    | 'f' :: 'a' :: 'l' :: 's' :: 'e' :: r => some (.bool false, r)
    | '"' :: r => (parseJStringGo (f + 1) r []).map (fun p => (.str p.1, p.2))
    | '[' :: r =>
      match skipWs r with
      | ']' :: r2 => some (.arr [], r2)
      | cs2 => parseJ f (.arrItems []) cs2
    | c :: r =>
      if c = lbrace then
        match skipWs r with
        | c2 :: r2 =>
          if c2 = rbrace then some (.obj [], r2)
          else parseJ f (.objItems []) (c2 :: r2)
        | [] => none
      else parseJNumber cs
  | f + 1, .arrItems acc, cs =>
    match parseJ f .val cs with
    | none => none
    | some (v, r) =>
      match skipWs r with
      | ',' :: r2 => parseJ f (.arrItems (v :: acc)) (skipWs r2)
      | ']' :: r2 => some (.arr (v :: acc).reverse, r2)
      | _ => none
  | f + 1, .objItems acc, cs =>
    match cs with
    | '"' :: r =>
      match parseJStringGo (f + 1) r [] with
      | none => none
      | some (k, r2) =>
        match skipWs r2 with
        | ':' :: r3 =>
          match parseJ f .val (skipWs r3) with
          | none => none
          | some (v, r4) =>
            match skipWs r4 with
            | ',' :: r5 =>
              match skipWs r5 with
              | '"' :: r6 => parseJ f (.objItems (objInsert acc k v)) ('"' :: r6)
              | _ => none
            | c :: r5 => if c = rbrace then some (.obj (objInsert acc k v), r5) else none
            | [] => none
        | _ => none
    | _ => none

/-- `json.JSONDecoder().raw_decode(s)`: decode one value starting at the
first character, returning it and the remaining input. -/
def rawDecode (cs : List Char) : Option (Json × List Char) :=
  parseJ (2 * cs.length + 8) .val cs

/-- `json.loads(s)`: one value, optionally surrounded by JSON whitespace,
consuming the entire input. -/
def jsonLoads (s : String) : Option Json :=
  match rawDecode (skipWs s.data) with
  | some (v, r) => if skipWs r = [] then some v else none
  | none => none

/-! ## gcal/scripts/sync.py: parser chain and normalizer -/

/-- `try_parse_json` (gcal sync.py): strip; require the text to start with
`{` or `[`; then `json.loads`. -/
def try_parse_json (text : String) : Option Json :=
  let t := pyStrip text
  match t.data with
  | [] => none
  | c :: _ => if c = lbrace || c = '[' then jsonLoads t else none

/-- Left-to-right scan of `extract_json`: at each `[` or `{` attempt
`raw_decode` of the suffix; first success wins. -/
def extractJsonGo : List Char → Option Json
  | [] => none
  | c :: rest =>
    if c = '[' || c = lbrace then
      match rawDecode (c :: rest) with
      | some (v, _) => some v
      | none => extractJsonGo rest
    else extractJsonGo rest

/-- `extract_json` (gcal sync.py): strip, then scan for the first position
whose suffix decodes as a JSON value. -/
def extract_json (text : String) : Option Json :=
  extractJsonGo (stripChars text.data)

/-- `Json.null` test (Python `is None` on a field value). -/
def Json.isNull : Json → Bool
  | .null => true
  | _ => false

/-- `pick_dt` (gcal sync.py). -/
def pick_dt : Json → String
  | .obj kvs =>
    pyStr (pyOr (jget (.obj kvs) "dateTime") (pyOr (jget (.obj kvs) "date") (.str "")))
  | .null => ""
  | v => pyStr v

/-- The attendee e-mail extraction inside `normalize_event`. -/
def attendeeEmails : List Json → List String
  | [] => []
  | a :: rest =>
    match a with
    | .obj kvs =>
      (match jget (.obj kvs) "email" with
       | .str e => if e ≠ "" then e :: attendeeEmails rest else attendeeEmails rest
       | _ => attendeeEmails rest)
    | .str s => if s ≠ "" then s :: attendeeEmails rest else attendeeEmails rest
    | _ => attendeeEmails rest

/-- `normalize_event` (gcal sync.py): identity from `id` then `eventId`
(`None` when neither yields a non-empty string), canonical fields, optional
passthrough fields only when present and non-null, attendee e-mails. -/
def normalize_event (raw : Json) (account : String) (calendar_id : String) : Option Json :=
  let eid := pyStr (pyOr (jget raw "id") (pyOr (jget raw "eventId") (.str "")))
  if eid = "" then none
  else
    let summary := pyOr (jget raw "summary") (pyOr (jget raw "title") (.str ""))
    let start := pick_dt (pyOr (jget raw "start") (jget raw "startTime"))
    let end_ := pick_dt (pyOr (jget raw "end") (jget raw "endTime"))
    let base : List (String × Json) :=
      [("id", .str eid), ("summary", summary), ("start", .str start), ("end", .str end_),
       ("account", .str account), ("calendar_id", .str calendar_id)]
    let base2 := ["location", "description", "htmlLink"].foldl
      (fun acc k => if jhas raw k && !(jget raw k).isNull then acc ++ [(k, jget raw k)] else acc)
      base
    let base3 :=
      match jget raw "attendees" with
      | .arr xs =>
        let emails := attendeeEmails xs
        if emails.isEmpty then base2 else base2 ++ [("attendees", .arr (emails.map .str))]
      | _ => base2
    some (.obj base3)

/-- The per-record loop shared by both branches of `parse_events`:
non-dicts are skipped, `normalize_event` returning `None` (or a falsy
value) drops the record. -/
def normList (xs : List Json) (account cal : String) : List Json :=
  match xs with
  | [] => []
  | e :: rest =>
    match e with
    | .obj kvs =>
      (match normalize_event (.obj kvs) account cal with
       | some n => if n.truthy then n :: normList rest account cal else normList rest account cal
       | none => normList rest account cal)
    | _ => normList rest account cal

/-- `parse_events` (gcal sync.py): a list is normalized elementwise; a dict
contributes its `events` or `items` list; anything else yields no records. -/
def parse_events : Option Json → String → String → List Json
  | some (.arr xs), a, c => normList xs a c
  | some (.obj kvs), a, c =>
    (match pyOr (jget (.obj kvs) "events") (pyOr (jget (.obj kvs) "items") (.arr [])) with
     | .arr xs => normList xs a c
     | _ => [])
  | _, _, _ => []

/-- The row loop of `parse_tsv_events`. -/
def tsvRows (lines : List String) (account cal : String) : List Json :=
  match lines with
  | [] => []
  | line :: rest =>
    let cols := pySplitChar '\t' line
    if cols.length < 4 then tsvRows rest account cal
    else
      let eid := pyStrip (cols.headD "")
      if eid = "" then tsvRows rest account cal
      else
        let start := pyStrip (cols[1]?.getD "")
        let end_ := pyStrip (cols[2]?.getD "")
        let summary := pyStrip (joinWith "\t" (cols.drop 3))
        let raw : Json := .obj [("id", .str eid), ("summary", .str summary),
                                ("start", .str start), ("end", .str end_)]
        match normalize_event raw account cal with
        | some n => if n.truthy then n :: tsvRows rest account cal else tsvRows rest account cal
        | none => tsvRows rest account cal

/-- `parse_tsv_events` (gcal sync.py): the `no events` sentinel and an
unrecognised header both yield an empty list; data rows with at least four
tab-separated columns and a non-empty id are normalized. -/
def parse_tsv_events (text : String) (account cal : String) : List Json :=
  let t := pyStrip text
  if t.data = [] then []
  else if pyLower (pyStrip t) = "no events" then []
  else
    match (pySplitlines t).filter (fun l => (pyStrip l).data ≠ []) with
    | [] => []
    | header :: rest =>
      if strStartsWith (pyUpper (pyStrip header)) "ID\tSTART\tEND\tSUMMARY" then
        tsvRows rest account cal
      else []

/-! ## SKILL.md frontmatter -/

/-- A frontmatter value: scalar string, scalar int, or list of strings. -/
inductive FmVal where
  | s (v : String)
  | i (n : Int)
  | l (xs : List String)
  deriving DecidableEq, Repr

/-- Dict-semantics assignment on an association list. -/
def setKV {β : Type} (d : List (String × β)) (k : String) (v : β) : List (String × β) :=
  match d with
  | [] => [(k, v)]
  | (k', v') :: rest => if k' = k then (k, v) :: rest else (k', v') :: setKV rest k v

/-- Dict lookup. -/
def getKV {β : Type} (d : List (String × β)) (k : String) : Option β :=
  (d.find? (fun kv => kv.1 = k)).map (·.2)

/-- `data.setdefault(k, []).append(x)`; the script only appends while the
key holds a list (the scalar case cannot occur, see `parse_frontmatter`). -/
def fmAppend (d : List (String × FmVal)) (k : String) (x : String) : List (String × FmVal) :=
  match getKV d k with
  | some (.l xs) => setKV d k (.l (xs ++ [x]))
  | _ => setKV d k (.l [x])

/-- The line loop of `parse_frontmatter` (gcal/github variant): stops at the
closing `---`, skips blanks and comments, accumulates `- ` items under the
pending list key, digit values become ints. -/
def parse_fm_go : List String → Option String → List (String × FmVal) → List (String × FmVal)
  | [], _, data => data
  | line :: rest, clk, data =>
    if pyStrip line = "---" then data
    else if (pyStrip line).data = [] || strStartsWith (pyLstrip line) "#" then
      parse_fm_go rest clk data
    else if strStartsWith (pyLstrip line) "- " && clk.isSome then
      parse_fm_go rest clk (fmAppend data (clk.getD "") (String.mk ((pyStrip line).data.drop 2)))
    else if ¬ line.data.any (· = ':') then parse_fm_go rest none data
    else
      let key := pyStrip (String.mk (line.data.takeWhile (· ≠ ':')))
      let raw := pyStrip (String.mk ((line.data.dropWhile (· ≠ ':')).drop 1))
      if raw = "" then parse_fm_go rest (some key) (setKV data key (.l []))
      else if pyIsDigit raw then parse_fm_go rest none (setKV data key (.i (digitsToNat raw.data)))
      else parse_fm_go rest none (setKV data key (.s raw))

/-- `parse_frontmatter` (gcal sync.py) on the file's lines. -/
def parse_frontmatter (lines : List String) : List (String × FmVal) :=
  match lines with
  | [] => []
  | first :: rest => if pyStrip first ≠ "---" then [] else parse_fm_go rest none []

/-- Python truthiness of a frontmatter value. -/
def fmTruthy : FmVal → Bool
  | .s v => v ≠ ""
  | .i n => n ≠ 0
  | .l xs => !xs.isEmpty

/-- `prefs.get(k) or d`. -/
def fmOrD (prefs : List (String × FmVal)) (k : String) (d : FmVal) : FmVal :=
  match getKV prefs k with
  | some v => if fmTruthy v then v else d
  | none => d

/-- `str()` of a frontmatter value. -/
def fmStr : FmVal → String
  | .s v => v
  | .i n => intRepr n
  | .l xs => pyStr (.arr (xs.map .str))

/-- `int()` of a frontmatter value (`none` models the `ValueError` /
`TypeError` the script would not catch). -/
def pyIntFm : FmVal → Option Int
  | .i n => some n
  | .s v => pyIntOfString v
  | .l _ => none

/-! ## gcal main: environment, events, run -/

/-- Outcome of one `subprocess.run` invocation of the external CLI. -/
inductive RunOutcome where
  | notFound
  | failed (code : Int) (stderr : String)
  | ok (stdout : String) (stderr : String)

/-- The ambient state a gcal run reads: the POS_DIR pointer, the SKILL.md
contents, and the outcome of the `gccli` invocation at each loop index.
The ISO-8601 strings derived from the wall clock are environment inputs. -/
structure GcalEnv where
  pos_dir : Option String
  skill_lines : List String
  run_gccli : Nat → String → RunOutcome
  now_s : String
  start_s : String
  end_s : String

/-- A lifecycle event on the run's stdout channel. -/
inductive Ev where
  | progress (msg : String) (pct : Rat)
  | error (msg : String)
  | artifact (path descr : String)
  | result (ok : Bool) (events : Nat) (accounts : List FmVal) (calendar_id : FmVal)
  deriving DecidableEq

/-- The snapshot document the run serializes to `STATE/gcal.json`. -/
structure GcalState where
  last_sync : String
  accounts : List FmVal
  calendar_id : FmVal
  range_from : String
  range_to : String
  days_back : Int
  days_ahead : Int
  events : List Json
  count : Nat
  per_account : List (String × Nat)
  errors : Option (List (String × Int × String))
  debug : Option (List (String × String × String))

/-- Result of a run: exit status, emitted events, the snapshot written (if
any); `crashed` marks an uncaught exception (no event protocol, no write). -/
structure RunOut where
  exit : Int
  evs : List Ev
  snap : Option GcalState
  crashed : Bool

/-- Lines 240–250 of gcal sync.py: the parse chain on one account's already
stripped stdout.  Returns the normalized events and the debug entry
(`stdout_head`, `stderr_head`) recorded when no parser produced anything. -/
def gcal_account_process (raw_out stderr account cal : String) :
    List Json × Option (String × String) :=
  let parsed := pyOrOpt (extract_json raw_out) (try_parse_json raw_out)
  let events := parse_events parsed account cal
  let events2 :=
    if parsed.isNone && events.isEmpty then parse_tsv_events raw_out account cal else events
  let dbg :=
    if parsed.isNone && events2.isEmpty then
      some (pyTake 2000 raw_out, pyTake 2000 (pyStrip stderr))
    else none
  (events2, dbg)

/-- Accumulator of the per-account loop. -/
structure LoopSt where
  evs : List Ev
  all_events : List Json
  per_account : List (String × Nat)
  errors : List (String × Int × String)
  debug : List (String × String × String)

/-- The per-account loop of gcal main (lines 206–252): skips non-string or
empty accounts, emits a progress event, and dispatches on the invocation
outcome — executable-not-found aborts the run (`inr` carries the final
event list), a non-zero exit records a per-account error and continues,
success runs the parse chain. -/
def gcal_loop (run : Nat → String → RunOutcome) (cal : FmVal) (n : Nat) :
    Nat → List FmVal → LoopSt → LoopSt ⊕ List Ev
  | _, [], st => .inl st
  | idx, a :: rest, st =>
    match a with
    | .s acct =>
      if acct = "" then gcal_loop run cal n (idx + 1) rest st
      else
        let pct : Rat := 1/10 + (7/10) * ((idx : Rat) / ((max n 1 : Nat) : Rat))
        let st1 := { st with
          evs := st.evs ++ [Ev.progress ("gccli " ++ acct ++ " events " ++ fmStr cal) pct] }
        match run idx acct with
        | .notFound => .inr (st1.evs ++ [Ev.error "gccli not found in PATH"])
        | .failed code stderr =>
          gcal_loop run cal n (idx + 1) rest
            { st1 with errors := setKV st1.errors acct (code, pyStrip stderr) }
        | .ok stdout stderr =>
          let raw_out := pyStrip stdout
          let pr := gcal_account_process raw_out stderr acct (fmStr cal)
          gcal_loop run cal n (idx + 1) rest
            { st1 with
              all_events := st1.all_events ++ pr.1
              per_account := setKV st1.per_account acct pr.1.length
              debug := match pr.2 with
                | some d => setKV st1.debug acct d
                | none => st1.debug }
    | _ => gcal_loop run cal n (idx + 1) rest st

/-- Sort key of the final event sort (`str(e.get('start') or '')`). -/
def start_key (e : Json) : String := pyStr (pyOr (jget e "start") (.str ""))

/-- `all_events.sort(key=start_key)`: stable ascending sort (stable
insertion sort computes the same list as Python's stable Timsort). -/
def sortEvents (l : List Json) : List Json :=
  l.insertionSort (fun a b => pyStrLe (start_key a) (start_key b) = true)

/-- The three `int(prefs.get(...) or default)` conversions of gcal main
(`max_events`, `days_back`, `days_ahead`); `none` models the uncaught
conversion exception. -/
def gcal_config_ints (prefs : List (String × FmVal)) : Option (Int × Int × Int) :=
  match pyIntFm (fmOrD prefs "max_events" (.i 50)),
        pyIntFm (fmOrD prefs "days_back" (.i 1)),
        pyIntFm (fmOrD prefs "days_ahead" (.i 14)) with
  | some a, some b, some c => some (a, b, c)
  | _, _, _ => none

/-- The account list of gcal main: `prefs.get('accounts') or []`, reset to
`[]` when not a list, with the scalar `account` fallback. -/
def gcal_accounts (prefs : List (String × FmVal)) : List FmVal :=
  let accounts1 : List FmVal :=
    match fmOrD prefs "accounts" (.l []) with
    | .l xs => xs.map .s
    | _ => []
  if accounts1.isEmpty then
    let fb := fmOrD prefs "account" (.s "")
    if fmTruthy fb then [fb] else accounts1
  else accounts1

/-- `main()` of gcal sync.py as a function of the run environment. -/
def gcal_main (env : GcalEnv) : RunOut :=
  match env.pos_dir with
  | none => ⟨1, [.error "POS_DIR not set"], none, false⟩
  | some pd =>
    if pd = "" then ⟨1, [.error "POS_DIR not set"], none, false⟩
    else
      let prefs := parse_frontmatter env.skill_lines
      let calendar_id := fmOrD prefs "calendar_id" (.s "primary")
      match gcal_config_ints prefs with
      | some (_max_events, days_back, days_ahead) =>
        let accounts : List FmVal := gcal_accounts prefs
        if accounts.isEmpty then
          ⟨1, [.error "gcal accounts not configured in SKILL.md frontmatter"], none, false⟩
        else
          match gcal_loop env.run_gccli calendar_id accounts.length 0 accounts ⟨[], [], [], [], []⟩ with
          | .inr evs => ⟨1, evs, none, false⟩
          | .inl st =>
            let all_events := sortEvents st.all_events
            let state : GcalState :=
              { last_sync := env.now_s
                accounts := accounts
                calendar_id := calendar_id
                range_from := env.start_s
                range_to := env.end_s
                days_back := days_back
                days_ahead := days_ahead
                events := all_events
                count := all_events.length
                per_account := st.per_account
                errors := if st.errors.isEmpty then none else some st.errors
                debug := if st.debug.isEmpty then none else some st.debug }
            ⟨0,
             st.evs ++ [Ev.artifact "STATE/gcal.json" "Updated calendar index state",
                        Ev.result true all_events.length accounts calendar_id],
             some state, false⟩
      | none => ⟨1, [], none, true⟩

/-! ## github main: de-dupe, sort, cap (lines 297–309) -/

/-- The URL de-duplication loop: items whose `url` is missing, empty or not
a string are skipped; a url already seen is skipped; otherwise the item is
kept and the url recorded. -/
def github_dedupe_go : List String → List Json → List Json
  | _, [] => []
  | seen, it :: rest =>
    match pyOr (jget it "url") (.str "") with
    | .str u =>
      if u = "" then github_dedupe_go seen rest
      else if seen.contains u then github_dedupe_go seen rest
      else it :: github_dedupe_go (u :: seen) rest
    | _ => github_dedupe_go seen rest

/-- First-seen-wins URL de-duplication of the collected items. -/
def github_dedupe (items : List Json) : List Json := github_dedupe_go [] items

/-- Sort key `str(x.get('updatedAt') or '')`. -/
def upd_key (x : Json) : String := pyStr (pyOr (jget x "updatedAt") (.str ""))

/-- `unique.sort(key=..., reverse=True)`: stable descending sort. -/
def github_sort (l : List Json) : List Json :=
  l.insertionSort (fun a b => pyStrLe (upd_key b) (upd_key a) = true)

/-- Python `l[:k]` for an Int bound. -/
def pySliceTo {α : Type} (l : List α) (k : Int) : List α :=
  if k < 0 then l.take (l.length - (-k).toNat) else l.take k.toNat

/-- Lines 297–309 of github sync.py: de-dupe, sort descending by
`updatedAt`, truncate to `max_items`. -/
def github_rank (items : List Json) (max_items : Nat) : List Json :=
  (github_sort (github_dedupe items)).take max_items

/-- The url survivors carry: `some u` iff the item's `url` field is a
non-empty string `u` (exactly the condition the de-dupe loop keeps). -/
def getUrl (it : Json) : Option String :=
  match pyOr (jget it "url") (.str "") with
  | .str u => if u = "" then none else some u
  | _ => none

/-! ## Snapshot write (gcal lines 273–277, github lines 328–332) -/

/-- The snapshot write of sync.py: `open(path, "w")` truncates any existing
file at `path` immediately, then the serialized document plus the trailing
newline is written.  `interrupt = some k` models a failure (serialization
exception, out of space) after `k` characters reached the file; `none` is
an uninterrupted write.  The filesystem is a map from paths to contents. -/
def write_snapshot (fs : String → Option String) (path : String) (doc : String)
    (interrupt : Option Nat) : (String → Option String) × Bool :=
  let content := doc ++ "\n"
  match interrupt with
  | none => (fun p => if p = path then some content else fs p, true)
  | some k => (fun p => if p = path then some (pyTake k content) else fs p, false)

/-! ## Event classifiers and run fixtures -/

/-- Is the event a `progress` event? -/
def isProgressEv : Ev → Bool
  | .progress _ _ => true
  | _ => false

/-- Is the event the terminal `result` event? -/
def isResultEv : Ev → Bool
  | .result _ _ _ _ => true
  | _ => false

/-- Does the per-account loop run into `FileNotFoundError` at some
iteration?  Mirrors the loop's own traversal: non-string and empty accounts
are skipped, a failed or successful invocation moves on to the next index. -/
def loop_hits_nf (run : Nat → String → RunOutcome) : Nat → List FmVal → Bool
  | _, [] => false
  | idx, a :: rest =>
    match a with
    | .s acct =>
      if acct = "" then loop_hits_nf run (idx + 1) rest
      else
        match run idx acct with
        | .notFound => true
        | _ => loop_hits_nf run (idx + 1) rest
    | _ => loop_hits_nf run (idx + 1) rest

/-- A filesystem with an existing snapshot at the gcal state path. -/
def fs0 : String → Option String :=
  fun p => if p = "STATE/gcal.json" then some "OLD-SNAPSHOT" else none

/-- An environment with the POS_DIR pointer absent. -/
def envNoPos : GcalEnv :=
  { pos_dir := none
    skill_lines := []
    run_gccli := fun _ _ => .notFound
    now_s := ""
    start_s := ""
    end_s := "" }

/-- Two configured accounts; the first `gccli` invocation exits non-zero
with the given code and stderr, the second succeeds with the given stdout. -/
def envPartial (c : Int) (st outB errB : String) : GcalEnv :=
  { pos_dir := some "POS"
    skill_lines := ["---", "accounts:", "- alice", "- bob", "---"]
    run_gccli := fun idx _ => if idx = 0 then .failed c st else .ok outB errB
    now_s := "NOW"
    start_s := "RANGE-FROM"
    end_s := "RANGE-TO" }

/-- Two configured accounts whose invocations return tabular output with
the same event id `e1` but different summaries. -/
def envDup : GcalEnv :=
  { pos_dir := some "POS"
    skill_lines := ["---", "accounts:", "- alice", "- bob", "---"]
    run_gccli := fun idx _ =>
      if idx = 0 then .ok "ID\tSTART\tEND\tSUMMARY\ne1\t1\t2\tfrom-alice" ""
      else .ok "ID\tSTART\tEND\tSUMMARY\ne1\t1\t2\tfrom-bob" ""
    now_s := "NOW"
    start_s := "RANGE-FROM"
    end_s := "RANGE-TO" }

/-- A single configured account whose invocation prints the literal
`no events` sentinel. -/
def envNE : GcalEnv :=
  { pos_dir := some "POS"
    skill_lines := ["---", "account: alice", "---"]
    run_gccli := fun _ _ => .ok "no events" ""
    now_s := "NOW"
    start_s := "RANGE-FROM"
    end_s := "RANGE-TO" }

/-- Two configured accounts: the first invocation succeeds with two tabular
records, the second hits `FileNotFoundError`. -/
def envNF : GcalEnv :=
  { pos_dir := some "POS"
    skill_lines := ["---", "accounts:", "- alice", "- bob", "---"]
    run_gccli := fun idx _ =>
      if idx = 0 then .ok "ID\tSTART\tEND\tSUMMARY\ne1\t1\t2\tA\ne2\t2\t3\tB" ""
      else .notFound
    now_s := "NOW"
    start_s := "RANGE-FROM"
    end_s := "RANGE-TO" }

/-- A raw calendar record with no identity field (`id`/`eventId` absent). -/
def rawNoId : Json := .obj [("summary", .str "standup")]

/-- A raw calendar record with an identity. -/
def rawGood : Json := .obj [("id", .str "evt-1"), ("summary", .str "planning")]

/-- Three github items with distinct urls and distinct update stamps. -/
def c4Items : List Json :=
  [.obj [("url", .str "https://x/1"), ("updatedAt", .str "2025-01-01T00:00:00Z")],
   .obj [("url", .str "https://x/2"), ("updatedAt", .str "2025-03-01T00:00:00Z")],
   .obj [("url", .str "https://x/3"), ("updatedAt", .str "2025-02-01T00:00:00Z")]]

/-- A github item with a valid url. -/
def ghItem1 : Json := .obj [("url", .str "https://x/pr/1"), ("updatedAt", .str "2025-05-01T00:00:00Z")]

/-- Collected github items: one with a url, one without, one with an empty
url, one with a non-string url. -/
def ghItems : List Json :=
  [ghItem1, .obj [("title", .str "no url")], .obj [("url", .str "")],
   .obj [("url", .num 7)]]

/-- Two github items sharing a url, differing in a non-key field. -/
def ghDupItems : List Json :=
  [.obj [("url", .str "https://x/9"), ("title", .str "first")],
   .obj [("url", .str "https://x/9"), ("title", .str "second")],
   .obj [("url", .str "https://x/8"), ("title", .str "other")]]

/-! ## Helper lemmas -/

theorem charsLe_total : ∀ as bs : List Char, charsLe as bs = true ∨ charsLe bs as = true := by
  intro as
  induction as with
  | nil => intro bs; left; rfl
  | cons a as ih =>
    intro bs
    cases bs with
    | nil => right; rfl
    | cons b bs =>
      rcases lt_trichotomy a b with h | h | h
      · left; simp [charsLe, h]
      · subst h
        rcases ih bs with h' | h'
        · left; simp [charsLe, lt_irrefl, h']
        · right; simp [charsLe, lt_irrefl, h']
      · right; simp [charsLe, h]

theorem charsLe_trans :
    ∀ as bs cs : List Char, charsLe as bs = true → charsLe bs cs = true → charsLe as cs = true := by
  intro as
  induction as with
  | nil => intro bs cs _ _; rfl
  | cons a as ih =>
    intro bs cs h1 h2
    cases bs with
    | nil => simp [charsLe] at h1
    | cons b bs =>
      cases cs with
      | nil => simp [charsLe] at h2
      | cons c cs =>
        rcases lt_trichotomy a b with hab | hab | hab
        · rcases lt_trichotomy b c with hbc | hbc | hbc
          · simp [charsLe, lt_trans hab hbc]
          · subst hbc; simp [charsLe, hab]
          · exfalso; simp [charsLe, lt_asymm hbc, hbc] at h2
        · subst hab
          rcases lt_trichotomy a c with hac | hac | hac
          · simp [charsLe, hac]
          · subst hac
            simp only [charsLe, lt_irrefl, if_false] at h1 h2 ⊢
            exact ih bs cs h1 h2
          · exfalso; simp [charsLe, lt_asymm hac, hac] at h2
        · exfalso; simp [charsLe, lt_asymm hab, hab] at h1

instance keyRevLeIsTotal {α : Type} (k : α → String) :
    IsTotal α (fun a b => pyStrLe (k b) (k a) = true) :=
  ⟨fun a b => (charsLe_total (k b).data (k a).data).imp id id⟩

instance keyRevLeIsTrans {α : Type} (k : α → String) :
    IsTrans α (fun a b => pyStrLe (k b) (k a) = true) :=
  ⟨fun _ _ _ h1 h2 => charsLe_trans _ _ _ h2 h1⟩

/-- An item that survives the URL de-dupe loop has a non-empty string
`url` field. -/
theorem mem_github_dedupe_go_url :
    ∀ (items : List Json) (seen : List String) (it : Json),
      it ∈ github_dedupe_go seen items → ∃ u, u ≠ "" ∧ jget it "url" = Json.str u := by
  intro items
  induction items with
  | nil => intro seen it h; simp [github_dedupe_go] at h
  | cons hd rest ih =>
    intro seen it h
    rcases hu : pyOr (jget hd "url") (Json.str "") with _ | b | q | u | xs | kvs <;>
      simp only [github_dedupe_go, hu] at h
    case str =>
      by_cases hu0 : u = ""
      · rw [if_pos hu0] at h; exact ih seen it h
      · rw [if_neg hu0] at h
        by_cases hseen : seen.contains u = true
        · rw [if_pos hseen] at h; exact ih seen it h
        · rw [if_neg hseen] at h
          rcases List.mem_cons.mp h with rfl | h'
          · refine ⟨u, hu0, ?_⟩
            by_cases ht : (jget it "url").truthy = true
            · simpa [pyOr, ht] using hu
            · have h0 : "" = u := by simpa [pyOr, ht] using hu
              exact absurd h0.symm hu0
          · exact ih (u :: seen) it h'
    all_goals exact ih seen it h

/-- While `u` is already in `seen`, the de-dupe loop keeps no record with
url `u`. -/
theorem github_dedupe_go_countP_seen (u : String) :
    ∀ (items : List Json) (seen : List String), seen.contains u = true →
      (github_dedupe_go seen items).countP (fun it => decide (getUrl it = some u)) = 0 := by
  intro items
  induction items with
  | nil => intro seen _; simp [github_dedupe_go]
  | cons hd rest ih =>
    intro seen hs
    rcases hu : pyOr (jget hd "url") (Json.str "") with _ | b | q | w | xs | kvs <;>
      simp only [github_dedupe_go, hu]
    case str =>
      by_cases hw0 : w = ""
      · rw [if_pos hw0]; exact ih seen hs
      · rw [if_neg hw0]
        by_cases hseen : seen.contains w = true
        · rw [if_pos hseen]; exact ih seen hs
        · rw [if_neg hseen]
          have hwu : ¬ w = u := fun h => hseen (h ▸ hs)
          have hget : getUrl hd = some w := by simp [getUrl, hu, hw0]
          have hs' : (w :: seen).contains u = true := by
            have hmem : u ∈ seen := by simpa using hs
            simp [List.contains_cons, hmem]
          rw [List.countP_cons, ih (w :: seen) hs']
          simp [hget, hwu]
    all_goals exact ih seen hs

/-- If some input item carries url `u` and `u` is not yet seen, the de-dupe
loop keeps exactly one record with url `u`. -/
theorem github_dedupe_go_countP (u : String) :
    ∀ (items : List Json) (seen : List String), seen.contains u = false →
      (∃ it ∈ items, getUrl it = some u) →
      (github_dedupe_go seen items).countP (fun it => decide (getUrl it = some u)) = 1 := by
  intro items
  induction items with
  | nil =>
    intro seen _ hex
    rcases hex with ⟨it, hmem, _⟩
    cases hmem
  | cons hd rest ih =>
    intro seen hs hex
    rcases hu : pyOr (jget hd "url") (Json.str "") with _ | b | q | w | xs | kvs <;>
      simp only [github_dedupe_go, hu]
    case str =>
      by_cases hw0 : w = ""
      · rw [if_pos hw0]
        refine ih seen hs ?_
        rcases hex with ⟨it, hmem, hit⟩
        rcases List.mem_cons.mp hmem with rfl | hm
        · rw [show getUrl it = none from by simp [getUrl, hu, hw0]] at hit
          cases hit
        · exact ⟨it, hm, hit⟩
      · rw [if_neg hw0]
        have hget : getUrl hd = some w := by simp [getUrl, hu, hw0]
        by_cases hseen : seen.contains w = true
        · rw [if_pos hseen]
          have hwu : ¬ w = u := fun h => by rw [h] at hseen; rw [hseen] at hs; cases hs
          refine ih seen hs ?_
          rcases hex with ⟨it, hmem, hit⟩
          rcases List.mem_cons.mp hmem with rfl | hm
          · rw [hget] at hit
            exact absurd (Option.some.inj hit) hwu
          · exact ⟨it, hm, hit⟩
        · rw [if_neg hseen]
          by_cases hwu : w = u
          · subst hwu
            rw [List.countP_cons]
            have hs' : (w :: seen).contains w = true := by simp [List.contains_cons]
            rw [github_dedupe_go_countP_seen w rest (w :: seen) hs']
            simp [hget]
          · rw [List.countP_cons]
            have hs' : (w :: seen).contains u = false := by
              have hns : ¬ u ∈ seen := by
                intro hm
                rw [show seen.contains u = true from by simpa using hm] at hs
                cases hs
              have hnuw : ¬ u = w := fun h => hwu h.symm
              simp [List.contains_cons, hns, hnuw]
            have hrest : ∃ it ∈ rest, getUrl it = some u := by
              rcases hex with ⟨it, hmem, hit⟩
              rcases List.mem_cons.mp hmem with rfl | hm
              · rw [hget] at hit
                exact absurd (Option.some.inj hit) hwu
              · exact ⟨it, hm, hit⟩
            rw [ih (w :: seen) hs' hrest]
            simp [hget, hwu]
    all_goals
      refine ih seen hs ?_
      rcases hex with ⟨it, hmem, hit⟩
      rcases List.mem_cons.mp hmem with rfl | hm
      · rw [show getUrl it = none from by simp [getUrl, hu]] at hit
        cases hit
      · exact ⟨it, hm, hit⟩

/-- While `u` is unseen, the first record with url `u` in the de-dupe
output is the first record with url `u` in the input. -/
theorem github_dedupe_go_find (u : String) :
    ∀ (items : List Json) (seen : List String), seen.contains u = false →
      (github_dedupe_go seen items).find? (fun it => decide (getUrl it = some u)) =
        items.find? (fun it => decide (getUrl it = some u)) := by
  intro items
  induction items with
  | nil => intro seen _; rfl
  | cons hd rest ih =>
    intro seen hs
    rcases hu : pyOr (jget hd "url") (Json.str "") with _ | b | q | w | xs | kvs <;>
      simp only [github_dedupe_go, hu]
    case str =>
      by_cases hw0 : w = ""
      · rw [if_pos hw0]
        have hp : (decide (getUrl hd = some u)) = false := by simp [getUrl, hu, hw0]
        rw [List.find?_cons, hp, ih seen hs]
      · rw [if_neg hw0]
        have hget : getUrl hd = some w := by simp [getUrl, hu, hw0]
        by_cases hseen : seen.contains w = true
        · have hwu : ¬ w = u := fun h => by rw [h] at hseen; rw [hseen] at hs; cases hs
          rw [if_pos hseen]
          have hp : (decide (getUrl hd = some u)) = false := by simp [hget, hwu]
          rw [List.find?_cons, hp, ih seen hs]
        · rw [if_neg hseen]
          by_cases hwu : w = u
          · subst hwu
            have hp : (decide (getUrl hd = some w)) = true := by simp [hget]
            rw [List.find?_cons, List.find?_cons, hp]
          · have hp : (decide (getUrl hd = some u)) = false := by simp [hget, hwu]
            have hs' : (w :: seen).contains u = false := by
              have hns : ¬ u ∈ seen := by
                intro hm
                rw [show seen.contains u = true from by simpa using hm] at hs
                cases hs
              have hnuw : ¬ u = w := fun h => hwu h.symm
              simp [List.contains_cons, hns, hnuw]
            rw [List.find?_cons, List.find?_cons, hp, ih (w :: seen) hs']
    all_goals
      have hp : (decide (getUrl hd = some u)) = false := by simp [getUrl, hu]
      rw [List.find?_cons, hp, ih seen hs]

/-- Dropping a record that `normalize_event` rejects does not change the
output of the normalization loop. -/
theorem normList_skips_unnormalizable (raw : Json) (a c : String)
    (hn : normalize_event raw a c = none) :
    ∀ pre post : List Json, normList (pre ++ raw :: post) a c = normList (pre ++ post) a c := by
  intro pre post
  induction pre with
  | nil =>
    show normList (raw :: post) a c = normList post a c
    cases raw <;> (simp only [normList]; try rfl)
    rw [hn]
  | cons e pre ih =>
    show normList (e :: (pre ++ raw :: post)) a c = normList (e :: (pre ++ post)) a c
    have step : ∀ L1 L2 : List Json, normList L1 a c = normList L2 a c →
        normList (e :: L1) a c = normList (e :: L2) a c := by
      intro L1 L2 hL
      cases e <;> simp only [normList] <;> rw [hL]
    exact step _ _ ih

/-- If the account loop runs into `FileNotFoundError`, the run aborts: the
loop returns the fatal event list, which extends the events emitted so far
with progress events and one final error event. -/
theorem gcal_loop_notFound :
    ∀ (l : List FmVal) (run : Nat → String → RunOutcome) (cal : FmVal) (n idx : Nat)
      (stA : LoopSt), loop_hits_nf run idx l = true →
      ∃ ps : List Ev,
        gcal_loop run cal n idx l stA =
          .inr (stA.evs ++ (ps ++ [Ev.error "gccli not found in PATH"])) ∧
        ∀ e ∈ ps, isProgressEv e = true := by
  intro l
  induction l with
  | nil => intro run cal n idx stA h; simp [loop_hits_nf] at h
  | cons a rest ih =>
    intro run cal n idx stA h
    cases a with
    | s acct =>
      by_cases hacct : acct = ""
      · rw [loop_hits_nf, if_pos hacct] at h
        rw [gcal_loop, if_pos hacct]
        exact ih run cal n (idx + 1) stA h
      · rw [loop_hits_nf, if_neg hacct] at h
        rw [gcal_loop, if_neg hacct]
        cases hr : run idx acct with
        | notFound =>
          refine ⟨[Ev.progress ("gccli " ++ acct ++ " events " ++ fmStr cal)
            (1/10 + (7/10) * ((idx : Rat) / ((max n 1 : Nat) : Rat)))], ?_, ?_⟩
          · exact congrArg Sum.inr (by simp)
          · intro e he
            rcases List.mem_singleton.mp he with rfl
            rfl
        | failed code stderr =>
          rw [hr] at h
          rcases ih run cal n (idx + 1)
            { stA with
              evs := stA.evs ++ [Ev.progress ("gccli " ++ acct ++ " events " ++ fmStr cal)
                (1/10 + (7/10) * ((idx : Rat) / ((max n 1 : Nat) : Rat)))]
              errors := setKV stA.errors acct (code, pyStrip stderr) } h with ⟨ps, hloop, hps⟩
          refine ⟨Ev.progress ("gccli " ++ acct ++ " events " ++ fmStr cal)
            (1/10 + (7/10) * ((idx : Rat) / ((max n 1 : Nat) : Rat))) :: ps, ?_, ?_⟩
          · exact hloop.trans (congrArg Sum.inr (by simp))
          · intro e he
            rcases List.mem_cons.mp he with rfl | hm
            · rfl
            · exact hps e hm
        | ok stdout stderr =>
          rw [hr] at h
          rcases ih run cal n (idx + 1)
            { stA with
              evs := stA.evs ++ [Ev.progress ("gccli " ++ acct ++ " events " ++ fmStr cal)
                (1/10 + (7/10) * ((idx : Rat) / ((max n 1 : Nat) : Rat)))]
              all_events := stA.all_events ++
                (gcal_account_process (pyStrip stdout) stderr acct (fmStr cal)).1
              per_account := setKV stA.per_account acct
                (gcal_account_process (pyStrip stdout) stderr acct (fmStr cal)).1.length
              debug := match (gcal_account_process (pyStrip stdout) stderr acct (fmStr cal)).2 with
                | some d => setKV stA.debug acct d
                | none => stA.debug } h with ⟨ps, hloop, hps⟩
          refine ⟨Ev.progress ("gccli " ++ acct ++ " events " ++ fmStr cal)
            (1/10 + (7/10) * ((idx : Rat) / ((max n 1 : Nat) : Rat))) :: ps, ?_, ?_⟩
          · exact hloop.trans (congrArg Sum.inr (by simp))
          · intro e he
            rcases List.mem_cons.mp he with rfl | hm
            · rfl
            · exact hps e hm
    | i m => exact ih run cal n (idx + 1) stA h
    | l xs => exact ih run cal n (idx + 1) stA h

/-! ## Claims -/

/-- C1: the claim says a failed snapshot write leaves the previously
existing snapshot byte-for-byte unchanged because the implementation
writes to a temporary location and atomically renames.  The implementation
instead opens the final path directly with truncation: a failure
immediately after the open (serialization error, disk full) leaves the
file truncated to the written prefix — here empty — destroying the old
snapshot. -/
theorem snapshot_write_destroys_old_on_failure :
    fs0 "STATE/gcal.json" = some "OLD-SNAPSHOT" ∧
    (write_snapshot fs0 "STATE/gcal.json" "NEW-STATE" (some 0)).1 "STATE/gcal.json" =
      some "" ∧
    (write_snapshot fs0 "STATE/gcal.json" "NEW-STATE" (some 0)).2 = false :=
  ⟨rfl, rfl, rfl⟩

/-- C2 counterexample: the text `log line\n[]` is a valid JSON value (`[]`)
preceded by log noise; the embedded scan finds it, but the chain's
`extract_json(raw) or try_parse_json(raw)` discards the falsy value, the
chain falls through to tabular parsing and ends in a parse-failure debug
entry — the JSON value is not extracted. -/
theorem gcal_chain_falsy_embedded_json_lost :
    extract_json "log line\n[]" = some (Json.arr []) ∧
    pyOrOpt (extract_json "log line\n[]") (try_parse_json "log line\n[]") = none ∧
    gcal_account_process "log line\n[]" "" "svc" "primary" =
      ([], some ("log line\n[]", "")) :=
  ⟨rfl, rfl, rfl⟩

/-- C2 (amended): in the gcal chain, whenever the embedded JSON scan
succeeds with a truthy value (a non-empty object/array), that value is the
chain's parse result and the chain neither falls through to the tabular
parser nor records a parse-failure diagnostic. -/
theorem gcal_chain_truthy_embedded_json (raw stderr a c : String) (v : Json)
    (hx : extract_json raw = some v) (hv : v.truthy = true) :
    pyOrOpt (extract_json raw) (try_parse_json raw) = some v ∧
    gcal_account_process raw stderr a c = (parse_events (some v) a c, none) := by
  have h1 : pyOrOpt (extract_json raw) (try_parse_json raw) = some v := by
    rw [hx]; simp [pyOrOpt, hv]
  refine ⟨h1, ?_⟩
  simp [gcal_account_process, h1]

/-- C2 witness: a concrete noisy output whose embedded non-empty JSON array
is extracted by the chain. -/
theorem gcal_chain_truthy_embedded_json_witness :
    pyOrOpt (extract_json "log: start\n[\"x\"]") (try_parse_json "log: start\n[\"x\"]") =
      some (Json.arr [Json.str "x"]) ∧
    gcal_account_process "log: start\n[\"x\"]" "" "svc" "primary" =
      (parse_events (some (Json.arr [Json.str "x"])) "svc" "primary", none) :=
  gcal_chain_truthy_embedded_json "log: start\n[\"x\"]" "" "svc" "primary"
    (Json.arr [Json.str "x"]) rfl rfl

/-- C3 counterexample: the gcal connector does not deduplicate — two
normalized records with the same identity key `e1`, one from each account
and differing only in the summary, both appear in the aggregated snapshot. -/
theorem gcal_aggregation_keeps_duplicate_ids :
    (gcal_main envDup).exit = 0 ∧
    (gcal_main envDup).snap.map
      (fun st => st.events.countP (fun e => decide (pyStr (jget e "id") = "e1"))) =
      some 2 ∧
    (gcal_main envDup).snap.map
      (fun st => st.events.map (fun e => pyStr (jget e "summary"))) =
      some ["from-alice", "from-bob"] :=
  ⟨rfl, rfl, rfl⟩

/-- C3 (amended): in the github connector, whose deduplication key is the
canonical url, the aggregation keeps exactly one record per url — the
first-encountered one (later records with the same url are dropped, not
merged); the gcal connector performs no deduplication at all. -/
theorem github_dedupe_first_seen_wins (items : List Json) (u : String)
    (h : ∃ it ∈ items, getUrl it = some u) :
    (github_dedupe items).countP (fun it => decide (getUrl it = some u)) = 1 ∧
    (github_dedupe items).find? (fun it => decide (getUrl it = some u)) =
      items.find? (fun it => decide (getUrl it = some u)) :=
  ⟨github_dedupe_go_countP u items [] rfl h, github_dedupe_go_find u items [] rfl⟩

/-- C3 witness: two items share a url and differ in the title; the de-duped
output has exactly one record with that url, and it is the first one. -/
theorem github_dedupe_first_seen_wins_witness :
    (github_dedupe ghDupItems).countP
      (fun it => decide (getUrl it = some "https://x/9")) = 1 ∧
    (github_dedupe ghDupItems).find? (fun it => decide (getUrl it = some "https://x/9")) =
      ghDupItems.find? (fun it => decide (getUrl it = some "https://x/9")) :=
  github_dedupe_first_seen_wins ghDupItems "https://x/9"
    ⟨Json.obj [("url", Json.str "https://x/9"), ("title", Json.str "first")],
     List.Mem.head _, rfl⟩

/-- C4: for a cap smaller than the number of de-duplicated records, the
capped output has exactly `C` records, every kept record ranks at least as
high (by the descending `updatedAt` order) as every dropped record, and
kept plus dropped records are a permutation of the de-duplicated input —
truncation happens after sorting and drops the least-relevant tail. -/
theorem github_cap_after_sort (items : List Json) (C : Nat)
    (h : C < (github_dedupe items).length) :
    (github_rank items C).length = C ∧
    (∀ x ∈ github_rank items C, ∀ y ∈ (github_sort (github_dedupe items)).drop C,
      pyStrLe (upd_key y) (upd_key x) = true) ∧
    (github_rank items C ++ (github_sort (github_dedupe items)).drop C).Perm
      (github_dedupe items) := by
  have hlen : (github_sort (github_dedupe items)).length = (github_dedupe items).length :=
    List.length_insertionSort _ _
  refine ⟨?_, ?_, ?_⟩
  · rw [github_rank, List.length_take, hlen]
    exact Nat.min_eq_left (Nat.le_of_lt h)
  · intro x hx y hy
    have hs := List.sorted_insertionSort
      (fun a b => pyStrLe (upd_key b) (upd_key a) = true) (github_dedupe items)
    exact hs.rel_of_mem_take_of_mem_drop hx hy
  · have h1 : github_rank items C ++ (github_sort (github_dedupe items)).drop C =
        github_sort (github_dedupe items) := List.take_append_drop C _
    rw [h1]
    exact List.perm_insertionSort _ _

/-- C4 witness: three de-duplicated items capped at one. -/
theorem github_cap_after_sort_witness :
    1 < (github_dedupe c4Items).length ∧ (github_rank c4Items 1).length = 1 ∧
    (github_rank c4Items 1 ++ (github_sort (github_dedupe c4Items)).drop 1).Perm
      (github_dedupe c4Items) :=
  ⟨by decide, (github_cap_after_sort c4Items 1 (by decide)).1,
   (github_cap_after_sort c4Items 1 (by decide)).2.2⟩

/-- C5: a raw record in which neither `id` nor `eventId` yields a truthy
(non-empty) value is dropped by `normalize_event`, contributes nothing to
the normalization loop output, and therefore neither appears in the
aggregation nor inflates the per-source record count (which is the length
of that output). -/
theorem normalize_event_missing_identity (raw : Json) (a c : String)
    (h1 : (jget raw "id").truthy = false) (h2 : (jget raw "eventId").truthy = false) :
    normalize_event raw a c = none ∧
    (∀ pre post : List Json, normList (pre ++ raw :: post) a c = normList (pre ++ post) a c) ∧
    (∀ pre post : List Json,
      parse_events (some (.arr (pre ++ raw :: post))) a c =
        parse_events (some (.arr (pre ++ post))) a c) := by
  have hn : normalize_event raw a c = none := by
    simp [normalize_event, pyOr, h1, h2, pyStr]
  refine ⟨hn, normList_skips_unnormalizable raw a c hn, ?_⟩
  intro pre post
  simp only [parse_events]
  exact normList_skips_unnormalizable raw a c hn pre post

/-- C5 witness: a record with only a summary is dropped and removing it
from a parsed array leaves the normalized output unchanged. -/
theorem normalize_event_missing_identity_witness :
    normalize_event rawNoId "acct" "prim" = none ∧
    parse_events (some (Json.arr [rawGood, rawNoId])) "acct" "prim" =
      parse_events (some (Json.arr [rawGood])) "acct" "prim" :=
  ⟨(normalize_event_missing_identity rawNoId "acct" "prim" rfl rfl).1,
   (normalize_event_missing_identity rawNoId "acct" "prim" rfl rfl).2.2 [rawGood] []⟩

/-- C6: in a two-source gcal run where the first source's command exits
non-zero and the second succeeds, the run continues past the failure: it
exits 0, the single terminal `result` event reports ok with the successful
source's record count, the snapshot persists exactly those records, and
the snapshot's error map is non-null with the failed source's exit code
and stripped stderr. -/
theorem gcal_partial_source_run (c : Int) (st outB errB : String) :
    (gcal_main (envPartial c st outB errB)).exit = 0 ∧
    (gcal_main (envPartial c st outB errB)).snap.map GcalState.errors =
      some (some [("alice", c, pyStrip st)]) ∧
    (gcal_main (envPartial c st outB errB)).snap.map GcalState.events =
      some (sortEvents (gcal_account_process (pyStrip outB) errB "bob" "primary").1) ∧
    (gcal_main (envPartial c st outB errB)).snap.map GcalState.per_account =
      some [("bob", (gcal_account_process (pyStrip outB) errB "bob" "primary").1.length)] ∧
    (gcal_main (envPartial c st outB errB)).evs.getLast? =
      some (Ev.result true
        (sortEvents (gcal_account_process (pyStrip outB) errB "bob" "primary").1).length
        [FmVal.s "alice", FmVal.s "bob"] (FmVal.s "primary")) ∧
    (gcal_main (envPartial c st outB errB)).evs.countP isResultEv = 1 ∧
    (sortEvents (gcal_account_process (pyStrip outB) errB "bob" "primary").1).length =
      (gcal_account_process (pyStrip outB) errB "bob" "primary").1.length :=
  ⟨rfl, rfl, rfl, rfl, rfl, rfl, List.length_insertionSort _ _⟩

/-- C7: a gcal run with the POS_DIR pointer absent emits exactly one
`error` event — no progress, artifact or result event — writes no
snapshot, and exits non-zero. -/
theorem gcal_fatal_config_missing (env : GcalEnv) (h : env.pos_dir = none) :
    gcal_main env = ⟨1, [Ev.error "POS_DIR not set"], none, false⟩ := by
  rw [gcal_main, h]

/-- C7 witness: a concrete environment without POS_DIR. -/
theorem gcal_fatal_config_missing_witness :
    gcal_main envNoPos = ⟨1, [Ev.error "POS_DIR not set"], none, false⟩ :=
  gcal_fatal_config_missing envNoPos rfl

/-- C8: whenever the per-account loop runs into executable-not-found — at
whatever source iteration — the gcal run aborts with exit 1, writes no
snapshot (records gathered from earlier sources are discarded), its last
event is the not-found `error` event, and no other event besides progress
events was emitted (in particular no artifact and no result). -/
theorem gcal_tool_not_found_aborts (env : GcalEnv) (p : String) (cfg : Int × Int × Int)
    (hp : env.pos_dir = some p) (hne : p ≠ "")
    (hcfg : gcal_config_ints (parse_frontmatter env.skill_lines) = some cfg)
    (hacc : (gcal_accounts (parse_frontmatter env.skill_lines)).isEmpty = false)
    (hnf : loop_hits_nf env.run_gccli 0 (gcal_accounts (parse_frontmatter env.skill_lines)) =
      true) :
    (gcal_main env).exit = 1 ∧ (gcal_main env).snap = none ∧
    (gcal_main env).evs.getLast? = some (Ev.error "gccli not found in PATH") ∧
    ∀ e ∈ (gcal_main env).evs,
      isProgressEv e = true ∨ e = Ev.error "gccli not found in PATH" := by
  obtain ⟨me, db, da⟩ := cfg
  obtain ⟨ps, hloop, hps⟩ := gcal_loop_notFound
    (gcal_accounts (parse_frontmatter env.skill_lines)) env.run_gccli
    (fmOrD (parse_frontmatter env.skill_lines) "calendar_id" (.s "primary"))
    (gcal_accounts (parse_frontmatter env.skill_lines)).length 0 ⟨[], [], [], [], []⟩ hnf
  have hmain : gcal_main env =
      ⟨1, ps ++ [Ev.error "gccli not found in PATH"], none, false⟩ := by
    simp [gcal_main, hp, hne, hcfg, hacc, hloop]
  rw [hmain]
  refine ⟨rfl, rfl, List.getLast?_concat _, ?_⟩
  intro e he
  rcases List.mem_append.mp he with hm | hm
  · exact Or.inl (hps e hm)
  · rcases List.mem_singleton.mp hm with rfl
    exact Or.inr rfl

/-- C8 witness: the first source succeeds with two records, the second
iteration hits executable-not-found; the run aborts without a snapshot. -/
theorem gcal_tool_not_found_aborts_witness :
    (gcal_main envNF).exit = 1 ∧ (gcal_main envNF).snap = none ∧
    (gcal_main envNF).evs.getLast? = some (Ev.error "gccli not found in PATH") :=
  ⟨(gcal_tool_not_found_aborts envNF "POS" (50, 1, 14) rfl (by decide) rfl rfl rfl).1,
   (gcal_tool_not_found_aborts envNF "POS" (50, 1, 14) rfl (by decide) rfl rfl rfl).2.1,
   (gcal_tool_not_found_aborts envNF "POS" (50, 1, 14) rfl (by decide) rfl rfl rfl).2.2.1⟩

/-- C9 counterexample: on the `no events` sentinel the tabular parser does
yield the empty list, but the call site cannot distinguish that from a
parse failure, so a parse-failure diagnostic IS recorded for the source —
contradicting the claim that none is. -/
theorem gcal_no_events_sentinel_debug :
    parse_tsv_events "no events" "alice" "primary" = [] ∧
    gcal_account_process "no events" "boom" "alice" "primary" =
      ([], some ("no events", "boom")) :=
  ⟨rfl, rfl⟩

/-- C9 (amended): a run whose only source prints `no events` still succeeds
as an empty result — exit 0, `result` ok with zero records, no per-source
error entry, per-source count 0 — but the snapshot's debug map carries a
parse-failure diagnostic for that source. -/
theorem gcal_no_events_sentinel_run :
    (gcal_main envNE).exit = 0 ∧
    (gcal_main envNE).evs.getLast? =
      some (Ev.result true 0 [FmVal.s "alice"] (FmVal.s "primary")) ∧
    (gcal_main envNE).snap.map GcalState.errors = some none ∧
    (gcal_main envNE).snap.map GcalState.debug = some (some [("alice", "no events", "")]) ∧
    (gcal_main envNE).snap.map GcalState.per_account = some [("alice", 0)] :=
  ⟨rfl, rfl, rfl, rfl, rfl⟩

/-- C10: every record that survives the github aggregation stage (de-dupe,
sort, cap) carries a non-empty string `url` field; items with a missing,
empty or non-string url are dropped before deduplication. -/
theorem github_rank_urls_nonempty (items : List Json) (C : Nat) (it : Json)
    (h : it ∈ github_rank items C) : ∃ u, u ≠ "" ∧ jget it "url" = Json.str u := by
  have h1 : it ∈ github_sort (github_dedupe items) := List.mem_of_mem_take h
  have h2 : it ∈ github_dedupe items := (List.mem_insertionSort _).mp h1
  exact mem_github_dedupe_go_url items [] it h2

/-- C10 witness: of four collected items (one good url, one missing, one
empty, one numeric), the survivor has the non-empty string url. -/
theorem github_rank_urls_nonempty_witness :
    ∃ u, u ≠ "" ∧ jget ghItem1 "url" = Json.str u :=
  github_rank_urls_nonempty ghItems 30 ghItem1 (List.Mem.head _)

end Bentos
